import Mathlib

/-!
# Verification of the polyglott-translator fan-out/aggregation engine

A shallow embedding, in Lean 4, of the translation core of the repository
(`src/translator.py`): the credential resolver (`get_api_key`,
`_get_admin_key`), the provider adapters (`translate_deepl`,
`translate_google`, `translate_pons`, `translate_lingva`), the enrichment
adapters (`get_pons_definition`, `get_groq_explanation`), and the fan-out
coordinator (`translate_to_all_languages`).

Modelling conventions:
* Python values that can appear in a parsed JSON response are modelled by
  the inductive `Json`; Python truthiness is `pyTruthy`.
* Adapters run in the monad `PyM`: a state monad counting network calls,
  layered with `Except Unit` for Python exceptions.  `pyTry x h` models
  `try: x except: h`.  Every `requests.get/post` is a `pyRequest`, which
  increments the call counter and consults a network oracle `Net`; the
  oracle decides the status code, the response body (which may itself fail
  to parse, modelling `response.json()` raising), or that the call raised
  (timeout / connection error).
* `datetime` values are modelled as integers measured in days; the
  `timedelta(days=7)` trial window is the integer `TRIAL_DAYS`.
* Library functions of Python that the claims do not depend on
  (`urllib`'s percent `quote`, `html.unescape`, and the grammatical
  annotation regex substitutions of `translator.py` lines 409-412) are
  abstracted as fields of a `PyPrims` record; everything else is
  translated directly from the source.
-/

set_option maxHeartbeats 1000000

namespace Polyglott

/-- Parsed JSON values (the possible results of `response.json()`). -/
inductive Json where
  | null : Json
  | bool (b : Bool) : Json
  | num (n : Int) : Json
  | str (s : String) : Json
  | arr (xs : List Json) : Json
  | obj (kvs : List (String × Json)) : Json
deriving Repr, BEq

/-- Python truthiness of a JSON value. -/
def pyTruthy : Json → Bool
  | .null => false
  | .bool b => b
  | .num n => n != 0
  | .str s => !s.isEmpty
  | .arr xs => !xs.isEmpty
  | .obj kvs => !kvs.isEmpty

/-- Truthiness of an `Optional[str]` (`None` and `""` are falsy). -/
def optStrTruthy : Option String → Bool
  | none => false
  | some s => !s.isEmpty

/-- The state-and-exception monad in which the Python code is embedded:
the `Nat` state counts how many network requests have been issued, and
`Except Unit` carries a raised Python exception. -/
def PyM (α : Type) : Type := Nat → Except Unit α × Nat

instance : Monad PyM where
  pure a := fun n => (.ok a, n)
  bind x f := fun n =>
    match x n with
    | (.ok a, n') => f a n'
    | (.error e, n') => (.error e, n')

/-- Raise a Python exception. -/
def pyRaise {α : Type} : PyM α := fun n => (.error (), n)

/-- `try: x except Exception: h` — the handler runs iff `x` raised. -/
def pyTry {α : Type} (x : PyM α) (h : PyM α) : PyM α := fun n =>
  match x n with
  | (.ok a, n') => (.ok a, n')
  | (.error _, n') => h n'

@[simp] theorem pure_apply {α : Type} (a : α) (n : Nat) :
    (pure a : PyM α) n = (.ok a, n) := rfl

@[simp] theorem bind_apply {α β : Type} (x : PyM α) (f : α → PyM β) (n : Nat) :
    (x >>= f) n =
      match x n with
      | (.ok a, n') => f a n'
      | (.error e, n') => (.error e, n') := rfl

@[simp] theorem pyTry_apply {α : Type} (x h : PyM α) (n : Nat) :
    pyTry x h n =
      match x n with
      | (.ok a, n') => (.ok a, n')
      | (.error _, n') => h n' := rfl

/-- A `pyTry` whose handler is a plain `pure` never raises. -/
theorem pyTry_pure_ok {α : Type} (x : PyM α) (c : α) (n : Nat) :
    ∃ v m, pyTry x (pure c) n = (.ok v, m) := by
  rcases hx : x n with ⟨r, m⟩
  cases r with
  | ok a => exact ⟨a, m, by simp [pyTry, hx]⟩
  | error e => exact ⟨c, m, by simp [pyTry, hx]⟩

/-! ## Association lists with Python-`dict` assignment semantics -/

/-- `d[k]`-style lookup: first binding wins (keys are kept unique by
`dictSet`, so this is the Python dict lookup). -/
def dictGet {α : Type} : List (String × α) → String → Option α
  | [], _ => none
  | (k', v) :: rest, k => if k' = k then some v else dictGet rest k

/-- `d[k] = v`: replace in place if the key is present, else append —
exactly the key-order behaviour of a Python dict assignment. -/
def dictSet {α : Type} : List (String × α) → String → α → List (String × α)
  | [], k, v => [(k, v)]
  | (k', v') :: rest, k, v =>
      if k' = k then (k, v) :: rest else (k', v') :: dictSet rest k v

@[simp] theorem dictGet_nil {α : Type} (k : String) :
    dictGet ([] : List (String × α)) k = none := rfl

theorem dictGet_dictSet_self {α : Type} (d : List (String × α)) (k : String) (v : α) :
    dictGet (dictSet d k v) k = some v := by
  induction d with
  | nil => simp [dictGet, dictSet]
  | cons p rest ih =>
      obtain ⟨k', v'⟩ := p
      by_cases h : k' = k <;> simp [dictGet, dictSet, h, ih]

theorem dictGet_dictSet_ne {α : Type} (d : List (String × α)) (k k' : String) (v : α)
    (h : k' ≠ k) : dictGet (dictSet d k v) k' = dictGet d k' := by
  have hne : k ≠ k' := fun hh => h hh.symm
  induction d with
  | nil => simp [dictGet, dictSet, hne]
  | cons p rest ih =>
      obtain ⟨k₀, v₀⟩ := p
      by_cases h₀ : k₀ = k
      · subst h₀
        simp [dictSet, dictGet, hne]
      · simp [dictSet, dictGet, h₀, ih]

/-- Overwriting a key with the value it already holds is a no-op. -/
theorem dictSet_eq_of_get {α : Type} (d : List (String × α)) (k : String) (v : α)
    (h : dictGet d k = some v) : dictSet d k v = d := by
  induction d with
  | nil => simp [dictGet] at h
  | cons p rest ih =>
      obtain ⟨k', v'⟩ := p
      by_cases hk : k' = k
      · subst hk
        simp [dictGet] at h
        simp [dictSet, h]
      · simp [dictGet, hk] at h
        simp [dictSet, hk, ih h]

/-! ## Credential resolver (`translator.py` lines 26-100) -/

/-- The admin keys loaded from the environment at startup
(`translator.py` lines 26-30); an unset variable is the empty string. -/
structure Env where
  deepl : String
  pons : String
  gemini : String
  groq : String
  google : String
deriving Repr, DecidableEq

/-- `TRIAL_DAYS = 7` (`translator.py` line 33); time is measured in days. -/
def TRIAL_DAYS : Int := 7

/-- A row of the `users` table as far as `get_api_key` reads it:
`created_at` is nullable (legacy rows). -/
structure UserRec where
  id : Nat
  username : String
  created_at : Option Int
deriving Repr, DecidableEq

/-- The database as far as the resolver reads it: the `users` table and
the `user_api_keys` table (`user_id`, `service`, encrypted key). -/
structure Db where
  users : List UserRec
  userKeys : List (Nat × String × String)
deriving Repr, DecidableEq

/-- The `UserApiKey` query of `get_api_key` (lines 47-50): first row whose
`user_id` and `service` match, yielding the stored encrypted key. -/
def findUserKey (db : Db) (user_id : Nat) (service : String) : Option String :=
  (db.userKeys.find? (fun r => r.1 == user_id && r.2.1 == service)).map (·.2.2)

/-- The `User` query of `get_api_key` (line 59). -/
def findUser (db : Db) (user_id : Nat) : Option UserRec :=
  db.users.find? (fun u => u.id == user_id)

/-- `_get_admin_key` (`translator.py` lines 90-100): map the service name
to the `.env` key, unknown services and empty keys giving `None`. -/
def _get_admin_key (env : Env) (service : String) : Option String :=
  let key :=
    if service = "deepl" then env.deepl
    else if service = "pons" then env.pons
    else if service = "google" then env.google
    else if service = "groq" then env.groq
    else if service = "gemini" then env.gemini
    else ""
  if key = "" then none else some key

/-- `get_api_key` (`translator.py` lines 36-76).  `decrypt` models
`auth.decrypt_api_key`, which may raise; `now` models
`datetime.utcnow()` in days. -/
def get_api_key (decrypt : String → Except Unit String) (now : Int) (env : Env)
    (db : Db) (user_id : Nat) (service : String) : Option String :=
  match findUserKey db user_id service with
  | some enc =>
      match decrypt enc with
      | .ok s => some s
      | .error _ => none
  | none =>
      match findUser db user_id with
      | none => none
      | some u =>
          if u.id = 1 ∨ u.username = "admin" then _get_admin_key env service
          else
            match u.created_at with
            | none => _get_admin_key env service
            | some c =>
                if now - c < TRIAL_DAYS then _get_admin_key env service else none

/-! ## The network oracle and Python data operations -/

/-- One outgoing HTTP request, as an adapter builds it. -/
structure Request where
  method : String
  url : String
  params : List (String × String)
  payload : Json
  headers : List (String × String)
  timeout : Nat

/-- What the network does to one request: raise (timeout, connection
failure), or answer with a status code and a body that `response.json()`
either parses or raises on. -/
inductive NetResult where
  | exn : NetResult
  | resp (status : Nat) (body : Except Unit Json) : NetResult

/-- The network oracle: adapters are proved correct for every oracle. -/
def Net : Type := Request → NetResult

/-- A network oracle with the same behaviour on every request. -/
def constNet (r : NetResult) : Net := fun _ => r

structure Resp where
  status : Nat
  body : Except Unit Json

/-- `requests.get` / `requests.post`: counts as one network call; raises
iff the oracle says the transport failed. -/
def pyRequest (net : Net) (r : Request) : PyM Resp := fun n =>
  match net r with
  | .exn => (.error (), n + 1)
  | .resp st b => (.ok ⟨st, b⟩, n + 1)

/-- `response.json()`: parses the body or raises. -/
def Resp.json (r : Resp) : PyM Json := fun n => (r.body, n)

/-- `v.get(k, d)` — raises `AttributeError` on a non-dict. -/
def pyGet (v : Json) (k : String) (d : Json) : PyM Json :=
  match v with
  | .obj kvs => pure ((dictGet kvs k).getD d)
  | _ => pyRaise

/-- `v[k]` for a string key — raises on a non-dict or a missing key. -/
def pyKey (v : Json) (k : String) : PyM Json :=
  match v with
  | .obj kvs =>
      match dictGet kvs k with
      | some x => pure x
      | none => pyRaise
  | _ => pyRaise

/-- `v[i]`: list indexing (strings index to one-character strings, as in
Python); anything else raises. -/
def pyIdx (v : Json) (i : Nat) : PyM Json :=
  match v with
  | .arr xs =>
      match xs[i]? with
      | some x => pure x
      | none => pyRaise
  | .str s =>
      match s.toList[i]? with
      | some c => pure (.str (String.mk [c]))
      | none => pyRaise
  | _ => pyRaise

/-- `len(v)` — raises on values without a length. -/
def pyLen : Json → PyM Nat
  | .arr xs => pure xs.length
  | .obj kvs => pure kvs.length
  | .str s => pure s.length
  | _ => pyRaise

/-- `for x in v`: iteration order of a list, the characters of a string,
the keys of a dict; anything else raises. -/
def pyList : Json → PyM (List Json)
  | .arr xs => pure xs
  | .str s => pure (s.toList.map (fun c => .str (String.mk [c])))
  | .obj kvs => pure (kvs.map (fun p => .str p.1))
  | _ => pyRaise

/-- Use a JSON value where Python requires a `str` (`in`, `re.sub`,
`.strip()` all raise `TypeError` otherwise). -/
def pyStr : Json → PyM String
  | .str s => pure s
  | _ => pyRaise

/-- `str(v)` as an f-string performs it: total. Container rendering is
approximate; the adapters only reach it on pathological responses. -/
def pyStrOf : Json → String
  | .str s => s
  | .num n => toString n
  | .bool true => "True"
  | .bool false => "False"
  | .null => "None"
  | v => toString (repr v)

/-! ## String helpers (kernel-computable counterparts of `str` methods) -/

/-- `s.lower()` (ASCII case folding, as the cleaned entries use). -/
def pyLower (s : String) : String := String.mk (s.toList.map Char.toLower)

/-- `s.strip()`. -/
def pyStrip (s : String) : String :=
  String.mk (((s.toList.dropWhile Char.isWhitespace).reverse.dropWhile
    Char.isWhitespace).reverse)

/-- `s.startswith(pre)`. -/
def strStartsWith (s pre : String) : Bool := pre.toList.isPrefixOf s.toList

/-- `needle in hay` (substring containment). -/
def strContains (hay needle : String) : Bool :=
  decide (needle.toList <:+: hay.toList)

/-- `s.split()` on runs of whitespace, dropping empty words. -/
def wordsAux (cur : List Char) : List Char → List (List Char)
  | [] => if cur = [] then [] else [cur.reverse]
  | c :: rest =>
      if c.isWhitespace then
        (if cur = [] then wordsAux [] rest else cur.reverse :: wordsAux [] rest)
      else wordsAux (c :: cur) rest

/-- `' '.join(s.split())` (`translator.py` line 413). -/
def normSpaces (s : String) : String :=
  String.intercalate " " ((wordsAux [] s.toList).map String.mk)

/-- `re.sub(r'<[^>]+>', '', s)` (`translator.py` lines 407, 472, 481) as
a left-to-right scan: `acc` holds the emitted output (reversed); a
`some buf` state means a `'<'` has been read and `buf` (reversed) holds
the `[^>]*` characters read since.  A `'>'` closing a non-empty buffer
drops the whole `<...>` group (the regex match, greedy up to the first
`'>'`); a `'>'` right after `'<'` emits the unmatched `<>` literally;
a `'<'` left unclosed at the end of input is emitted literally, as the
regex leaves it unmatched. -/
def stripTagsGo (acc : List Char) : Option (List Char) → List Char → List Char
  | none, [] => acc.reverse
  | some buf, [] => acc.reverse ++ '<' :: buf.reverse
  | none, c :: rest =>
      if c = '<' then stripTagsGo acc (some []) rest
      else stripTagsGo (c :: acc) none rest
  | some buf, c :: rest =>
      if c = '>' then
        if buf = [] then stripTagsGo ('>' :: '<' :: acc) none rest
        else stripTagsGo acc none rest
      else stripTagsGo acc (some (c :: buf)) rest

def stripTags (s : String) : String := String.mk (stripTagsGo [] none s.toList)

/-- The Python library functions the embedding keeps abstract: the claims
under verification do not depend on their behaviour. -/
structure PyPrims where
  /-- `requests.utils.quote` (URL percent-encoding). -/
  quote : String → String
  /-- `html.unescape` (HTML entity decoding). -/
  unescape : String → String
  /-- The grammatical-annotation substitutions of `translate_pons`,
  `translator.py` lines 409-412 (four `re.sub` calls). -/
  gramSub : String → String

/-! ## Provider adapters -/

/-- `lang_map` / `source_map` of `translate_deepl` (lines 261-271). -/
def deeplSourceMap : List (String × String) :=
  [("de", "DE"), ("en", "EN"), ("es", "ES"), ("pl", "PL"), ("fr", "FR"),
   ("it", "IT"), ("pt", "PT"), ("nl", "NL"), ("ru", "RU")]

/-- `target_map` of `translate_deepl` (lines 274-284). -/
def deeplTargetMap : List (String × String) :=
  [("de", "DE"), ("en", "EN-US"), ("es", "ES"), ("pl", "PL"), ("fr", "FR"),
   ("it", "IT"), ("pt", "PT-PT"), ("nl", "NL"), ("ru", "RU")]

def deeplRequest (text src tgt key : String) : Request :=
  { method := "POST"
    url := "https://api-free.deepl.com/v2/translate"
    params := []
    payload := .obj [("text", .arr [.str text]), ("source_lang", .str src),
                     ("target_lang", .str tgt)]
    headers := [("Authorization", "DeepL-Auth-Key " ++ key),
                ("Content-Type", "application/json")]
    timeout := 10 }

/-- `translate_deepl` (`translator.py` lines 251-312). -/
def translate_deepl (net : Net) (text source target : String)
    (api_key : Option String) : PyM Json :=
  pyTry
    (if source = target then pure (.str text)
     else if !optStrTruthy api_key then pure (.str "[No API Key]")
     else
       let src := (deeplSourceMap.lookup source).getD "EN"
       let tgt := (deeplTargetMap.lookup target).getD "EN-US"
       do
         let resp ← pyRequest net (deeplRequest text src tgt (api_key.getD ""))
         if resp.status = 200 then do
           let data ← resp.json
           let tr ← pyGet data "translations" .null
           if pyTruthy tr then do
             let t0 ← pyIdx tr 0
             pyKey t0 "text"
           else pure (.str "[Error]")
         else if resp.status = 429 ∨ resp.status = 456 then pure (.str "[Limit]")
         else pure (.str "[Error]"))
    (pure (.str "[Error]"))

def googleOfficialRequest (text source target key : String) : Request :=
  { method := "POST"
    url := "https://translation.googleapis.com/language/translate/v2"
    params := [("key", key), ("q", text), ("source", source),
               ("target", target), ("format", "text")]
    payload := .null
    headers := []
    timeout := 8 }

def googleFreeRequest (text source target : String) : Request :=
  { method := "GET"
    url := "https://translate.googleapis.com/translate_a/single"
    params := [("client", "gtx"), ("sl", source), ("tl", target),
               ("dt", "t"), ("q", text)]
    payload := .null
    headers := []
    timeout := 5 }

/-- The comprehension `[item[0] for item in result[0] if item[0]]` of
`translate_google` line 144. -/
def googleGather : List Json → PyM (List Json)
  | [] => pure []
  | item :: rest => do
      let x ← pyIdx item 0
      let r ← googleGather rest
      pure (if pyTruthy x then x :: r else r)

/-- `"".join(parts)` — raises `TypeError` at the first non-string part. -/
def pyJoinStrs : List Json → PyM String
  | [] => pure ""
  | .str s :: rest => do
      let r ← pyJoinStrs rest
      pure (s ++ r)
  | _ :: _ => pyRaise

/-- `translate_google` (`translator.py` lines 103-149): official endpoint
when a key is supplied, free endpoint otherwise. -/
def translate_google (net : Net) (text source target : String)
    (api_key : Option String) : PyM Json :=
  pyTry
    (if source = target then pure (.str text)
     else if optStrTruthy api_key then do
       let resp ← pyRequest net
         (googleOfficialRequest text source target (api_key.getD ""))
       if resp.status = 200 then do
         let data ← resp.json
         let d ← pyGet data "data" (.obj [])
         let translations ← pyGet d "translations" (.arr [])
         if pyTruthy translations then do
           let t0 ← pyIdx translations 0
           pyKey t0 "translatedText"
         else pure (.str "[Error]")
       else if resp.status = 403 then pure (.str "[No API Key]")
       else if resp.status = 429 then pure (.str "[Limit]")
       else pure (.str "[Error]")
     else do
       let resp ← pyRequest net (googleFreeRequest text source target)
       if resp.status = 200 then do
         let result ← resp.json
         if pyTruthy result then do
           let r0 ← pyIdx result 0
           if pyTruthy r0 then do
             let items ← pyList r0
             let parts ← googleGather items
             let s ← pyJoinStrs parts
             pure (.str s)
           else pure (.str "[Error]")
         else pure (.str "[Error]")
       else if resp.status = 429 then pure (.str "[Limit]")
       else pure (.str "[Error]"))
    (pure (.str "[Error]"))

/-- The public Lingva instances tried in order (lines 322-326). -/
def lingvaInstances : List String :=
  ["https://lingva.ml/api/v1", "https://translate.plausibility.cloud/api/v1",
   "https://lingva.garuber.dev/api/v1"]

def lingvaRequest (pp : PyPrims) (base text source target : String) : Request :=
  { method := "GET"
    url := base ++ "/" ++ source ++ "/" ++ target ++ "/" ++ pp.quote text
    params := []
    payload := .null
    headers := []
    timeout := 8 }

/-- One iteration of the instance loop of `translate_lingva`
(lines 329-337): `some v` iff the body executed a `return v`. -/
def lingvaIter (net : Net) (pp : PyPrims) (text source target base : String) :
    PyM (Option Json) := do
  let resp ← pyRequest net (lingvaRequest pp base text source target)
  if resp.status = 200 then do
    let data ← resp.json
    let tr ← pyGet data "translation" .null
    if pyTruthy tr then do
      let v ← pyKey data "translation"
      pure (some v)
    else pure none
  else if resp.status = 429 then pure (some (.str "[Limit]"))
  else pure none

/-- The instance loop: `except Exception: continue` makes a raising
iteration indistinguishable from one that found nothing. -/
def lingvaLoop (net : Net) (pp : PyPrims) (text source target : String) :
    List String → PyM (Option Json)
  | [] => pure none
  | base :: rest => do
      let r ← pyTry (lingvaIter net pp text source target base) (pure none)
      match r with
      | some v => pure (some v)
      | none => lingvaLoop net pp text source target rest

/-- `translate_lingva` (`translator.py` lines 315-343). -/
def translate_lingva (net : Net) (pp : PyPrims) (text source target : String) :
    PyM Json :=
  pyTry
    (if source = target then pure (.str text)
     else do
       let r ← lingvaLoop net pp text source target lingvaInstances
       match r with
       | some v => pure v
       | none => pure (.str "[Error]"))
    (pure (.str "[Error]"))

/-- `lang_map` of `translate_pons` (lines 358-368). -/
def ponsLangMap : List (String × String) :=
  [("de", "de"), ("en", "en"), ("es", "es"), ("pl", "pl"), ("fr", "fr"),
   ("it", "it"), ("pt", "pt"), ("nl", "nl"), ("ru", "ru")]

/-- `valid_pairs` (lines 377-379). -/
def ponsValidPairs : List String :=
  ["deen", "dees", "depl", "enes", "enpl", "espl", "defr", "enfr",
   "deit", "enit", "esit", "frit", "deru", "enru", "denl", "ennl",
   "dept", "enpt", "espt", "frpt"]

def ponsRequest (pp : PyPrims) (pair text key : String) : Request :=
  { method := "GET"
    url := "https://api.pons.com/v1/dictionary?l=" ++ pair ++ "&q=" ++ pp.quote text
    params := []
    payload := .null
    headers := [("X-Secret", key)]
    timeout := 10 }

/-- The response-cleaning chain of `translate_pons` lines 407-413:
strip markup, decode entities, strip the grammatical annotations,
normalize whitespace. -/
def cleanCandidate (pp : PyPrims) (target_html : String) : String :=
  normSpaces (pp.gramSub (pp.unescape (stripTags target_html)))

/-- The pure vetting portion of the innermost loop of `translate_pons`
(lines 408-424): clean the candidate, discard prepositional-phrase
artifacts (`sb`/`sth`/`jdn`/`etw`/`dat`/`akk`), long `to `-infinitives
and reflexive `sich ` entries, then keep the entry iff it is non-empty,
case-insensitively new, and under 25 characters. -/
def ponsVet (pp : PyPrims) (st : List String × List String)
    (target_html : String) : List String × List String :=
  let clean := cleanCandidate pp target_html
  if strContains clean "sb" ∨ strContains clean "sth" then st
  else if strContains clean "jdn" ∨ strContains clean "etw" ∨
          strContains clean "dat" ∨ strContains clean "akk" then st
  else if strStartsWith clean "to " ∧ clean.length > 15 then st
  else if strStartsWith clean "sich " then st
  else if clean ≠ "" ∧ pyLower clean ∉ st.1 ∧ clean.length < 25 then
    (pyLower clean :: st.1, st.2 ++ [clean])
  else st

/-- The innermost loop body of `translate_pons` (lines 401-424); the
state is (`seen`, `all_translations`), `seen` holding the lowercased
entries already taken.  Example-sentence candidates
(`'class="example"' in source_html`) are skipped before the target html
is touched; the rest of the branch is the pure `ponsVet`. -/
def ponsStep (pp : PyPrims) (st : List String × List String) (arab : Json) :
    PyM (List String × List String) := do
  let translations ← pyGet arab "translations" (.arr [])
  if pyTruthy translations then do
    let t0 ← pyIdx translations 0
    let targetJ ← pyGet t0 "target" (.str "")
    let sourceJ ← pyGet t0 "source" (.str "")
    let source_html ← pyStr sourceJ
    if strContains source_html "class=\"example\"" then pure st
    else do
      let target_html ← pyStr targetJ
      pure (ponsVet pp st target_html)
  else pure st

/-- `for` loops of the Python code, threading an accumulator; a raise
inside an iteration aborts the whole loop (caught further out). -/
def pyFoldM {σ α : Type} (f : σ → α → PyM σ) : σ → List α → PyM σ
  | s, [] => pure s
  | s, a :: rest => do
      let s' ← f s a
      pyFoldM f s' rest

/-- `for arab in rom.get("arabs", [])` (lines 399-424). -/
def ponsRom (pp : PyPrims) (st : List String × List String) (rom : Json) :
    PyM (List String × List String) := do
  let arabs ← pyGet rom "arabs" (.arr [])
  let arabsL ← pyList arabs
  pyFoldM (ponsStep pp) st arabsL

/-- `for rom in hit.get("roms", [])` (lines 397-424). -/
def ponsHit (pp : PyPrims) (st : List String × List String) (hit : Json) :
    PyM (List String × List String) := do
  let roms ← pyGet hit "roms" (.arr [])
  let romsL ← pyList roms
  pyFoldM (ponsRom pp) st romsL

/-- `for hit in hits` (lines 396-424) from the empty state. -/
def ponsCollect (pp : PyPrims) (hits : Json) :
    PyM (List String × List String) := do
  let hitsL ← pyList hits
  pyFoldM (ponsHit pp) ([], []) hitsL

/-- `translate_pons` (`translator.py` lines 346-432). -/
def translate_pons (net : Net) (pp : PyPrims) (text source target : String)
    (api_key : Option String) : PyM Json :=
  pyTry
    (if source = target then pure (.str text)
     else if !optStrTruthy api_key then pure (.str "[No API Key]")
     else
       let src := (ponsLangMap.lookup source).getD "de"
       let tgt := (ponsLangMap.lookup target).getD "en"
       let pair0 := src ++ tgt
       let rpair := tgt ++ src
       let pair :=
         if pair0 ∉ ponsValidPairs ∧ rpair ∈ ponsValidPairs then rpair else pair0
       do
         let resp ← pyRequest net (ponsRequest pp pair text (api_key.getD ""))
         if resp.status = 200 then do
           let data ← resp.json
           if pyTruthy data then do
             let n ← pyLen data
             if n > 0 then do
               let d0 ← pyIdx data 0
               let hits ← pyGet d0 "hits" (.arr [])
               let st ← ponsCollect pp hits
               if st.2 ≠ [] then
                 pure (.str (String.intercalate ", " (st.2.take 8)))
               else pure (.str "[Error]")
             else pure (.str "[Error]")
           else pure (.str "[Error]")
         else if resp.status = 429 then pure (.str "[Limit]")
         else pure (.str "[Error]"))
    (pure (.str "[Error]"))

/-! ## Enrichment adapters -/

/-- The dictionary-pair choice of `get_pons_definition` (lines 444-453). -/
def ponsDefPair (lang_code : String) : String :=
  if lang_code = "de" then "deen"
  else if lang_code = "en" then "deen"
  else if lang_code = "es" then "dees"
  else if lang_code = "pl" then "depl"
  else "deen"

/-- `re.sub(r'^\d+\.\s*', '', s)` (line 483). -/
def stripLeadingNum (s : String) : String :=
  let cs := s.toList
  let ds := cs.takeWhile Char.isDigit
  if ds.isEmpty then s
  else
    match cs.drop ds.length with
    | '.' :: rest => String.mk (rest.dropWhile Char.isWhitespace)
    | _ => s

/-- `re.sub(r':$', '', s)` (line 491). -/
def stripTrailingColon (s : String) : String :=
  if s.toList.getLast? = some ':' then String.mk s.toList.dropLast else s

/-- The `arab` loop body of `get_pons_definition` (lines 478-485). -/
def pdArab (pp : PyPrims) (defs : List String) (arab : Json) :
    PyM (List String) := do
  let headerJ ← pyGet arab "header" (.str "")
  if pyTruthy headerJ then do
    let h ← pyStr headerJ
    let h1 := pyStrip (pp.unescape (stripTags h))
    let h2 := stripLeadingNum h1
    if h2 ≠ "" ∧ h2.length > 2 then pure (defs ++ [h2]) else pure defs
  else pure defs

/-- The `rom` loop body of `get_pons_definition` (lines 467-485). -/
def pdRom (pp : PyPrims) (defs : List String) (rom : Json) :
    PyM (List String) := do
  let wordclassJ ← pyGet rom "wordclass" (.str "")
  let headwordJ ← pyGet rom "headword_full" (.str "")
  let defs' ←
    if pyTruthy headwordJ then do
      let hw ← pyStr headwordJ
      let clean_hw := pyStrip (pp.unescape (stripTags hw))
      if pyTruthy wordclassJ ∧ clean_hw ≠ "" then
        pure (defs ++ ["[" ++ pyStrOf wordclassJ ++ "] " ++ clean_hw])
      else pure defs
    else pure defs
  let arabs ← pyGet rom "arabs" (.arr [])
  let arabsL ← pyList arabs
  pyFoldM (pdArab pp) defs' (arabsL.take 3)

/-- The `hit` loop body of `get_pons_definition` (lines 465-485). -/
def pdHit (pp : PyPrims) (defs : List String) (hit : Json) :
    PyM (List String) := do
  let roms ← pyGet hit "roms" (.arr [])
  let romsL ← pyList roms
  pyFoldM (pdRom pp) defs (romsL.take 2)

/-- The deduplication of `get_pons_definition` (lines 488-493). -/
def dedupeDefs (defs : List String) : List String :=
  defs.foldl
    (fun unique d =>
      let d1 := pyStrip d
      let d2 := pyStrip (stripTrailingColon d1)
      if d2 ≠ "" ∧ d2.length > 2 ∧ d2 ∉ unique ∧ unique.length < 4 then
        unique ++ [d2]
      else unique)
    []

/-- What `get_pons_definition` runs on the parsed body of an HTTP 200
response (lines 460-496): the whole definition-collecting pipeline,
falling through to `""` when the body is falsy or yields no entries; a
structurally invalid body raises inside (caught by the enclosing
`try`). -/
def pdBody200 (pp : PyPrims) (data : Json) : PyM String :=
  if pyTruthy data then do
    let n ← pyLen data
    if n > 0 then do
      let d0 ← pyIdx data 0
      let hits ← pyGet d0 "hits" (.arr [])
      let hitsL ← pyList hits
      let defs ← pyFoldM (pdHit pp) [] (hitsL.take 2)
      if defs ≠ [] then
        pure (String.intercalate " • " (dedupeDefs defs))
      else pure ""
    else pure ""
  else pure ""

/-- `get_pons_definition` (`translator.py` lines 435-498). -/
def get_pons_definition (net : Net) (pp : PyPrims) (text lang_code : String)
    (api_key : Option String) : PyM String :=
  if !optStrTruthy api_key then pure ""
  else
    pyTry
      (do
        let pair := ponsDefPair lang_code
        let resp ← pyRequest net (ponsRequest pp pair text (api_key.getD ""))
        if resp.status = 200 then do
          let data ← resp.json
          pdBody200 pp data
        else pure "")
      (pure "")

/-- `lang_names` of `get_groq_explanation` (lines 507-517). -/
def groqLangNames : List (String × String) :=
  [("de", "Deutsch"), ("en", "English"), ("es", "Español"), ("pl", "Polski"),
   ("fr", "Français"), ("it", "Italiano"), ("pt", "Português"),
   ("nl", "Nederlands"), ("ru", "Русский")]

/-- The chat-completion request (lines 520-534); the float literal `0.3`
is kept textually, floats being outside the embedding. -/
def groqRequest (text lang_name key : String) : Request :=
  { method := "POST"
    url := "https://api.groq.com/openai/v1/chat/completions"
    params := []
    payload := .obj
      [("model", .str "llama-3.1-8b-instant"),
       ("messages", .arr [.obj
         [("role", .str "user"),
          ("content", .str ("Explain \"" ++ text ++ "\" briefly in " ++
            lang_name ++ ". Maximum 2 sentences. No bullet points."))]]),
       ("temperature", .str "0.3"),
       ("max_tokens", .num 100)]
    headers := [("Authorization", "Bearer " ++ key),
                ("Content-Type", "application/json")]
    timeout := 10 }

/-- What `get_groq_explanation` runs on the parsed body of an HTTP 200
response (lines 539-541 with the shared `return ""` fall-through):
extract and strip `choices[0]["message"]["content"]`, returning `""`
when `choices` is missing or falsy; a structurally invalid body raises
inside (caught by the enclosing `try`). -/
def groqBody200 (data : Json) : PyM String := do
  let ch ← pyGet data "choices" .null
  if pyTruthy ch then do
    let c0 ← pyIdx ch 0
    let msg ← pyKey c0 "message"
    let content ← pyKey msg "content"
    let s ← pyStr content
    pure (pyStrip s)
  else pure ""

/-- `get_groq_explanation` (`translator.py` lines 501-547). -/
def get_groq_explanation (net : Net) (text lang_code : String)
    (api_key : Option String) : PyM String :=
  if !optStrTruthy api_key then pure ""
  else
    pyTry
      (do
        let lang_name := (groqLangNames.lookup lang_code).getD "Deutsch"
        let resp ← pyRequest net (groqRequest text lang_name (api_key.getD ""))
        if resp.status = 200 then do
          let data ← resp.json
          groqBody200 data
        else if resp.status = 429 then pure "[Limit] API-Limit erreicht"
        else pure "")
      (pure "")

/-! ## Fan-out coordinator (`translate_to_all_languages`, lines 550-675) -/

/-- `LANGUAGE_CODES` (`translator.py` lines 13-23). -/
def LANGUAGE_CODES : List (String × String) :=
  [("german", "de"), ("english", "en"), ("spanish", "es"), ("polish", "pl"),
   ("french", "fr"), ("italian", "it"), ("portuguese", "pt"),
   ("dutch", "nl"), ("russian", "ru")]

/-- Lines 572-573: absent, empty or `"auto"` source defaults to german. -/
def effSourceLang (source_lang : Option String) : String :=
  match source_lang with
  | none => "german"
  | some s => if s = "" ∨ s = "auto" then "german" else s

/-- Line 575: `LANGUAGE_CODES.get(source_lang, "de")`. -/
def sourceCodeFor (lang : String) : String :=
  (dictGet LANGUAGE_CODES lang).getD "de"

/-- Line 642: `LANGUAGE_CODES.get(target_lang, "en")`. -/
def targetCodeFor (lang : String) : String :=
  (dictGet LANGUAGE_CODES lang).getD "en"

/-- The default target list of line 579. -/
def defaultTargets : List String := ["spanish", "german", "polish", "english"]

/-- Lines 578-581: explicit list, or default list, minus the source. -/
def effTargetLangs (source_lang : String) (target_languages : Option (List String)) :
    List String :=
  match target_languages with
  | none => defaultTargets.filter (· ≠ source_lang)
  | some ts => ts.filter (· ≠ source_lang)

/-- `ADMIN_X_API_KEY or None` (lines 596-599). -/
def strOrNone (s : String) : Option String := if s = "" then none else some s

/-- Key resolution of lines 584-599: per-user resolution when a truthy
`user_id` and a db session are supplied, admin fallback otherwise.
Order: (deepl, pons, google, groq). -/
def resolveKeys (decrypt : String → Except Unit String) (now : Int) (env : Env)
    (user_id : Option Nat) (db : Option Db) :
    Option String × Option String × Option String × Option String :=
  match user_id, db with
  | some uid, some d =>
      if uid ≠ 0 then
        (get_api_key decrypt now env d uid "deepl",
         get_api_key decrypt now env d uid "pons",
         get_api_key decrypt now env d uid "google",
         get_api_key decrypt now env d uid "groq")
      else (strOrNone env.deepl, strOrNone env.pons, strOrNone env.google,
            strOrNone env.groq)
  | _, _ =>
      (strOrNone env.deepl, strOrNone env.pons, strOrNone env.google,
       strOrNone env.groq)

/-- `all_translators` (lines 608-613): name-keyed adapter closures over
the resolved keys. -/
def allTranslators (net : Net) (pp : PyPrims)
    (deepl_key pons_key google_key : Option String) :
    List (String × (String → String → String → PyM Json)) :=
  [("DeepL", fun t s g => translate_deepl net t s g deepl_key),
   ("PONS", fun t s g => translate_pons net pp t s g pons_key),
   ("Google", fun t s g => translate_google net t s g google_key),
   ("Lingva", fun t s g => translate_lingva net pp t s g)]

/-- Lines 616-620: keep a provider iff the (truthy) toggle dict maps its
name to a true value, a missing name defaulting to enabled; a falsy
toggle dict enables everything. -/
def enabledFilter {F : Type} (enabled_services : Option (List (String × Bool)))
    (tbl : List (String × F)) : List (String × F) :=
  match enabled_services with
  | some m =>
      if m.isEmpty then tbl
      else tbl.filter (fun p => (dictGet m p.1).getD true)
  | none => tbl

/-- Lines 622-627: the two enrichment toggles, defaulting to enabled. -/
def explToggles (explanation_services : Option (List (String × Bool))) :
    Bool × Bool :=
  match explanation_services with
  | some m =>
      if m.isEmpty then (true, true)
      else ((dictGet m "PONS Definition").getD true,
            (dictGet m "Groq AI").getD true)
  | none => (true, true)

/-- Run one submitted task: each worker-pool task starts with its own
call counter. -/
def runPy {α : Type} (x : PyM α) : Except Unit α := (x 0).1

/-- Lines 649-655: `future.result()` under `try`, a raising task writing
`"[Error]"` into its own cell. -/
def cellValue (task : PyM Json) : Json :=
  match runPy task with
  | .ok v => v
  | .error _ => .str "[Error]"

/-- Lines 657-673: an enrichment slot gets its task's result, `""` on a
raise, and `""` when the enrichment was not submitted. -/
def enrichValue (enabled : Bool) (task : PyM String) : String :=
  if enabled then
    match runPy task with
    | .ok s => s
    | .error _ => ""
  else ""

/-- The result dict of `translate_to_all_languages` (lines 601-605,
660-673): source echo, the per-language per-provider matrix, and the two
enrichment slots. -/
structure FanoutResult where
  source_language : String
  source_text : String
  translations : List (String × List (String × Json))
  ai_explanation : String
  groq_explanation : String

/-- The submission loop of lines 641-647: for each target language,
create its (empty) row and submit one task per enabled provider; the
accumulated pair is (`result["translations"]`, `futures`). -/
def submitLoop (translators : List (String × (String → String → String → PyM Json)))
    (text source_code : String) :
    List (String × List (String × Json)) × List (String × String × Json) →
    List String → List (String × List (String × Json)) × List (String × String × Json)
  | acc, [] => acc
  | acc, lang :: rest =>
      submitLoop translators text source_code
        (dictSet acc.1 lang [],
         acc.2 ++ translators.map
           (fun p => (lang, p.1, cellValue (p.2 text source_code (targetCodeFor lang)))))
        rest

/-- The collection loop of lines 649-655: write each completed outcome
into its (language, provider) cell. -/
def fillLoop : List (String × List (String × Json)) →
    List (String × String × Json) → List (String × List (String × Json))
  | d, [] => d
  | d, (lang, name, v) :: rest =>
      fillLoop (dictSet d lang (dictSet ((dictGet d lang).getD []) name v)) rest

/-- `translate_to_all_languages` (`translator.py` lines 550-675). -/
def translate_to_all_languages (decrypt : String → Except Unit String) (now : Int)
    (env : Env) (net : Net) (pp : PyPrims) (text : String)
    (source_lang : Option String) (target_languages : Option (List String))
    (enabled_services : Option (List (String × Bool)))
    (explanation_services : Option (List (String × Bool)))
    (user_id : Option Nat) (db : Option Db) : FanoutResult :=
  let src := effSourceLang source_lang
  let source_code := sourceCodeFor src
  let targets := effTargetLangs src target_languages
  let keys := resolveKeys decrypt now env user_id db
  let translators := enabledFilter enabled_services
    (allTranslators net pp keys.1 keys.2.1 keys.2.2.1)
  let toggles := explToggles explanation_services
  let submitted := submitLoop translators text source_code ([], []) targets
  let filled := fillLoop submitted.1 submitted.2
  { source_language := src
    source_text := text
    translations := filled
    ai_explanation :=
      enrichValue toggles.1 (get_pons_definition net pp text source_code keys.2.1)
    groq_explanation :=
      enrichValue toggles.2 (get_groq_explanation net text source_code keys.2.2.2) }

/-! ## Theorems -/

/-- **C3, counterexample.** The claim's precedence list ends with
"otherwise None", but a legacy user lacking a creation timestamp — who
has no stored key, is not the administrative account, and has no trial
window to be inside of — still receives the shared deployment key:
`get_api_key` returns the fallback key `"K"`, not `None`. -/
theorem c3_counterexample :
    findUserKey ⟨[⟨2, "bob", none⟩], []⟩ 2 "deepl" = none ∧
    findUser ⟨[⟨2, "bob", none⟩], []⟩ 2 = some ⟨2, "bob", none⟩ ∧
    (2 ≠ 1 ∧ "bob" ≠ "admin") ∧
    get_api_key (fun _ => .error ()) 100 ⟨"K", "", "", "", ""⟩
      ⟨[⟨2, "bob", none⟩], []⟩ 2 "deepl" = some "K" :=
  ⟨rfl, rfl, ⟨by decide, by decide⟩, rfl⟩

/-- **C3 (amended).** Credential resolution evaluates in order with first
match winning: (1) a key the user stored for the service (its decryption
succeeding); (2) if the user is within the trial window, or is the
administrative account (id 1 or username "admin"), **or is a legacy
account with no creation timestamp**, the shared deployment fallback key;
(3) otherwise None. In particular a user holding both a personal key and
an active trial window receives the personal key. -/
theorem c3_amended_precedence (decrypt : String → Except Unit String) (now : Int)
    (env : Env) (db : Db) (uid : Nat) (service : String) :
    (∀ enc s, findUserKey db uid service = some enc → decrypt enc = .ok s →
        get_api_key decrypt now env db uid service = some s) ∧
    (∀ u, findUserKey db uid service = none → findUser db uid = some u →
        (u.id = 1 ∨ u.username = "admin" ∨ u.created_at = none ∨
          ∃ c, u.created_at = some c ∧ now - c < TRIAL_DAYS) →
        get_api_key decrypt now env db uid service = _get_admin_key env service) ∧
    (∀ u c, findUserKey db uid service = none → findUser db uid = some u →
        u.id ≠ 1 → u.username ≠ "admin" → u.created_at = some c →
        TRIAL_DAYS ≤ now - c →
        get_api_key decrypt now env db uid service = none) := by
  refine ⟨?_, ?_, ?_⟩
  · intro enc s h1 h2
    simp [get_api_key, h1, h2]
  · intro u h1 h2 h3
    simp only [get_api_key, h1, h2]
    by_cases hadm : u.id = 1 ∨ u.username = "admin"
    · rw [if_pos hadm]
    · rw [if_neg hadm]
      rcases h3 with h | h | h | ⟨c, hc, hlt⟩
      · exact absurd (Or.inl h) hadm
      · exact absurd (Or.inr h) hadm
      · rw [h]
      · rw [hc]
        exact if_pos hlt
  · intro u c h1 h2 h3 h4 h5 h6
    simp only [get_api_key, h1, h2]
    rw [if_neg (by simp [h3, h4]), h5]
    exact if_neg (by omega)

/-- **C10.** If the user's stored key for the service decrypts with an
exception, `get_api_key` returns `None` for that (user, service) pair —
no fall-through to the trial-window or admin branches. -/
theorem c10_corrupt_key_disables (decrypt : String → Except Unit String)
    (now : Int) (env : Env) (db : Db) (uid : Nat) (service enc : String)
    (hk : findUserKey db uid service = some enc)
    (hd : decrypt enc = .error ()) :
    get_api_key decrypt now env db uid service = none := by
  simp [get_api_key, hk, hd]

/-- **C10, witness.** Even the administrative account (id 1, username
"admin", admin keys configured) is disabled by a corrupt stored key. -/
theorem c10_corrupt_key_disables_witness :
    get_api_key (fun _ => .error ()) 0 ⟨"K", "K", "K", "K", "K"⟩
      ⟨[⟨1, "admin", none⟩], [(1, "deepl", "enc")]⟩ 1 "deepl" = none :=
  c10_corrupt_key_disables (fun _ => .error ()) 0 ⟨"K", "K", "K", "K", "K"⟩
    ⟨[⟨1, "admin", none⟩], [(1, "deepl", "enc")]⟩ 1 "deepl" "enc" rfl rfl

/-- A guarded `pyTry` of the enrichment shape never raises. -/
theorem pyTry_guard_ok {α : Type} (b : Bool) (x : PyM α) (c d : α) (n : Nat) :
    ∃ v m, (if b then pure d else pyTry x (pure c)) n = (.ok v, m) := by
  cases b
  · simpa using pyTry_pure_ok x c n
  · exact ⟨d, n, by simp⟩

/-- **C4, counterexample.** The claim says a credential-requiring adapter
with no credential returns NoCredential; but the identity short-circuit
is checked first, so DeepL called with `source == target` and no key
returns `Success("hi")`, not `"[No API Key]"`. -/
theorem c4_counterexample :
    translate_deepl (constNet .exn) "hi" "en" "en" none 0 = (.ok (.str "hi"), 0) ∧
    Json.str "hi" ≠ Json.str "[No API Key]" :=
  ⟨rfl, by intro h; injection h with h2; exact absurd h2 (by decide)⟩

/-- **C4 (amended).** When `source ≠ target`, the credential-requiring
adapters (DeepL and PONS) called with no credential return
`"[No API Key]"` (NoCredential) without issuing any network call: the
call counter is unchanged for every network oracle. -/
theorem c4_amended_no_credential (net : Net) (pp : PyPrims)
    (text source target : String) (n : Nat) (h : source ≠ target) :
    translate_deepl net text source target none n
      = (.ok (.str "[No API Key]"), n) ∧
    translate_pons net pp text source target none n
      = (.ok (.str "[No API Key]"), n) := by
  constructor <;>
    simp [translate_deepl, translate_pons, pyTry, h, optStrTruthy]

/-- **C4 (amended), witness.** -/
theorem c4_amended_no_credential_witness :
    translate_deepl (constNet .exn) "hi" "en" "de" none 0
      = (.ok (.str "[No API Key]"), 0) ∧
    translate_pons (constNet .exn) ⟨id, id, id⟩ "hi" "en" "de" none 0
      = (.ok (.str "[No API Key]"), 0) :=
  c4_amended_no_credential (constNet .exn) ⟨id, id, id⟩ "hi" "en" "de" 0
    (by decide)

/-- **C6.** Every provider adapter of the fan-out, on any input whose
source code equals its target code, returns `Success` carrying exactly
the original text, with the network-call counter unchanged (no network
call), for every network oracle. -/
theorem c6_identity_short_circuit (net : Net) (pp : PyPrims)
    (text code : String) (dk pk gk : Option String) (n : Nat) :
    translate_deepl net text code code dk n = (.ok (.str text), n) ∧
    translate_pons net pp text code code pk n = (.ok (.str text), n) ∧
    translate_google net text code code gk n = (.ok (.str text), n) ∧
    translate_lingva net pp text code code n = (.ok (.str text), n) := by
  refine ⟨?_, ?_, ?_, ?_⟩ <;>
    simp [translate_deepl, translate_pons, translate_google, translate_lingva,
      pyTry]

/-- **C7.** Every provider adapter of the fan-out is total at the adapter
boundary: whatever the network oracle does on each call (transport
exception, unparsable body, unexpected status, malformed structure), the
adapter returns a value — `Except.ok` — and never propagates an
exception; its value is then classified by the four-outcome taxonomy
(`"[No API Key]"`, `"[Limit]"`, `"[Error]"`, anything else `Success`). -/
theorem c7_adapter_totality (net : Net) (pp : PyPrims)
    (text source target : String) (dk pk gk : Option String) (n : Nat) :
    (∃ v m, translate_deepl net text source target dk n = (.ok v, m)) ∧
    (∃ v m, translate_pons net pp text source target pk n = (.ok v, m)) ∧
    (∃ v m, translate_google net text source target gk n = (.ok v, m)) ∧
    (∃ v m, translate_lingva net pp text source target n = (.ok v, m)) :=
  ⟨pyTry_pure_ok _ _ n, pyTry_pure_ok _ _ n, pyTry_pure_ok _ _ n,
   pyTry_pure_ok _ _ n⟩

/-- On HTTP 200 the dictionary enrichment returns exactly its pipeline's
outcome: a raise anywhere inside (structurally invalid parsed body) is
caught and becomes `""`. -/
theorem get_pons_definition_http200 (pp : PyPrims) (text lc : String)
    (key : Option String) (n : Nat) (data : Json)
    (hk : optStrTruthy key = true) :
    get_pons_definition (constNet (.resp 200 (.ok data))) pp text lc key n
      = match pdBody200 pp data (n + 1) with
        | (.ok r, m) => (.ok r, m)
        | (.error _, m) => (.ok "", m) := by
  simp only [get_pons_definition, hk, Bool.not_true, Bool.false_eq_true,
    if_false, pyTry, bind_apply, pure_apply, pyRequest, constNet, Resp.json,
    reduceIte]
  rcases h : pdBody200 pp data (n + 1) with ⟨r, m⟩
  cases r <;> simp [h]

/-- On HTTP 200 the AI-explanation enrichment returns exactly its
pipeline's outcome: a raise anywhere inside (structurally invalid parsed
body) is caught and becomes `""`. -/
theorem get_groq_explanation_http200 (text lc : String) (key : Option String)
    (n : Nat) (data : Json) (hk : optStrTruthy key = true) :
    get_groq_explanation (constNet (.resp 200 (.ok data))) text lc key n
      = match groqBody200 data (n + 1) with
        | (.ok r, m) => (.ok r, m)
        | (.error _, m) => (.ok "", m) := by
  simp only [get_groq_explanation, hk, Bool.not_true, Bool.false_eq_true,
    if_false, pyTry, bind_apply, pure_apply, pyRequest, constNet, Resp.json,
    reduceIte]
  rcases h : groqBody200 data (n + 1) with ⟨r, m⟩
  cases r <;> simp [h]

/-- **C5, counterexample.** The claim says a failing enrichment call
returns the empty string; but the AI-explanation adapter maps HTTP 429
to the marker `"[Limit] API-Limit erreicht"`, not `""`. -/
theorem c5_counterexample :
    get_groq_explanation (constNet (.resp 429 (.ok .null))) "x" "de"
      (some "k") 0 = (.ok "[Limit] API-Limit erreicht", 1) ∧
    "[Limit] API-Limit erreicht" ≠ "" :=
  ⟨rfl, by decide⟩

/-- **C5 (amended).** Both enrichment adapters are soft: they never raise
past the adapter boundary; they return `""` when no credential is
available (without a network call), on transport failure, on any non-200
status — except that the AI-explanation adapter returns the marker
`"[Limit] API-Limit erreicht"` on HTTP 429 — and on malformed HTTP 200
responses: a body `response.json()` raises on yields `""`, and on any
parsed body the result is exactly the pipeline's outcome with every
internal raise (structurally invalid body) caught as `""`; in
particular a falsy body, a JSON-object body, a body whose first element
has no usable hits, a non-object AI body, and a body with missing or
falsy `choices` all yield `""`. -/
theorem c5_amended_soft_enrichment (net : Net) (pp : PyPrims)
    (text lc : String) (key : Option String) (n : Nat) :
    (∃ v m, get_pons_definition net pp text lc key n = (.ok v, m)) ∧
    (∃ v m, get_groq_explanation net text lc key n = (.ok v, m)) ∧
    (optStrTruthy key = false →
      get_pons_definition net pp text lc key n = (.ok "", n) ∧
      get_groq_explanation net text lc key n = (.ok "", n)) ∧
    (∀ st body, optStrTruthy key = true → st ≠ 200 →
      get_pons_definition (constNet (.resp st body)) pp text lc key n
        = (.ok "", n + 1)) ∧
    (∀ st body, optStrTruthy key = true → st ≠ 200 → st ≠ 429 →
      get_groq_explanation (constNet (.resp st body)) text lc key n
        = (.ok "", n + 1)) ∧
    (∀ body, optStrTruthy key = true →
      get_groq_explanation (constNet (.resp 429 body)) text lc key n
        = (.ok "[Limit] API-Limit erreicht", n + 1)) ∧
    (optStrTruthy key = true →
      get_pons_definition (constNet .exn) pp text lc key n = (.ok "", n + 1) ∧
      get_groq_explanation (constNet .exn) text lc key n = (.ok "", n + 1)) ∧
    (optStrTruthy key = true →
      get_pons_definition (constNet (.resp 200 (.error ()))) pp text lc key n
        = (.ok "", n + 1) ∧
      get_groq_explanation (constNet (.resp 200 (.error ()))) text lc key n
        = (.ok "", n + 1)) ∧
    (∀ data, optStrTruthy key = true →
      get_pons_definition (constNet (.resp 200 (.ok data))) pp text lc key n
        = match pdBody200 pp data (n + 1) with
          | (.ok r, m) => (.ok r, m)
          | (.error _, m) => (.ok "", m)) ∧
    (∀ data, optStrTruthy key = true →
      get_groq_explanation (constNet (.resp 200 (.ok data))) text lc key n
        = match groqBody200 data (n + 1) with
          | (.ok r, m) => (.ok r, m)
          | (.error _, m) => (.ok "", m)) ∧
    (∀ data, optStrTruthy key = true → pyTruthy data = false →
      get_pons_definition (constNet (.resp 200 (.ok data))) pp text lc key n
        = (.ok "", n + 1)) ∧
    (∀ q kvs, optStrTruthy key = true →
      get_pons_definition (constNet (.resp 200 (.ok (.obj (q :: kvs))))) pp
        text lc key n = (.ok "", n + 1)) ∧
    (optStrTruthy key = true →
      get_pons_definition (constNet (.resp 200 (.ok (.arr [.obj []])))) pp
        text lc key n = (.ok "", n + 1)) ∧
    (∀ data, optStrTruthy key = true → (∀ kvs, data ≠ .obj kvs) →
      get_groq_explanation (constNet (.resp 200 (.ok data))) text lc key n
        = (.ok "", n + 1)) ∧
    (∀ kvs, optStrTruthy key = true →
      pyTruthy ((dictGet kvs "choices").getD .null) = false →
      get_groq_explanation (constNet (.resp 200 (.ok (.obj kvs)))) text lc
        key n = (.ok "", n + 1)) := by
  refine ⟨?_, ?_, ?_, ?_, ?_, ?_, ?_, ?_, ?_, ?_, ?_, ?_, ?_, ?_, ?_⟩
  · exact pyTry_guard_ok _ _ _ _ n
  · exact pyTry_guard_ok _ _ _ _ n
  · intro hk
    constructor <;> simp [get_pons_definition, get_groq_explanation, hk]
  · intro st body hk hst
    simp [get_pons_definition, hk, pyTry, pyRequest, constNet, hst]
  · intro st body hk hst h429
    simp [get_groq_explanation, hk, pyTry, pyRequest, constNet, hst, h429]
  · intro body hk
    simp [get_groq_explanation, hk, pyTry, pyRequest, constNet]
  · intro hk
    constructor <;>
      simp [get_pons_definition, get_groq_explanation, hk, pyTry, pyRequest,
        constNet]
  · intro hk
    constructor <;>
      simp [get_pons_definition, get_groq_explanation, hk, pyTry, pyRequest,
        constNet, Resp.json]
  · intro data hk
    exact get_pons_definition_http200 pp text lc key n data hk
  · intro data hk
    exact get_groq_explanation_http200 text lc key n data hk
  · intro data hk hfalsy
    rw [get_pons_definition_http200 pp text lc key n data hk]
    simp [pdBody200, hfalsy]
  · intro q kvs hk
    rw [get_pons_definition_http200 pp text lc key n _ hk]
    simp [pdBody200, pyTruthy, pyLen, pyIdx, pyRaise]
  · intro hk
    rw [get_pons_definition_http200 pp text lc key n _ hk]
    simp [pdBody200, pyTruthy, pyLen, pyIdx, pyGet, pyList, pyFoldM, dictGet]
  · intro data hk hno
    rw [get_groq_explanation_http200 text lc key n data hk]
    cases data
    case obj kvs => exact absurd rfl (hno kvs)
    all_goals simp [groqBody200, pyGet, pyRaise]
  · intro kvs hk hch
    rw [get_groq_explanation_http200 text lc key n _ hk]
    simp [groqBody200, pyGet, hch]

/-! ## Coordinator lemmas -/

theorem dictGet_mem_fst {α : Type} (d : List (String × α)) (k : String) (v : α)
    (h : dictGet d k = some v) : k ∈ d.map Prod.fst := by
  induction d with
  | nil => simp [dictGet] at h
  | cons p rest ih =>
      obtain ⟨k', v'⟩ := p
      by_cases hk : k' = k
      · simp [hk]
      · rw [dictGet, if_neg hk] at h
        simp [ih h]

theorem dictSet_of_none {α : Type} (d : List (String × α)) (k : String) (v : α)
    (h : dictGet d k = none) : dictSet d k v = d ++ [(k, v)] := by
  induction d with
  | nil => simp [dictSet]
  | cons p rest ih =>
      obtain ⟨k', v'⟩ := p
      by_cases hk : k' = k
      · rw [dictGet, if_pos hk] at h
        exact absurd h (by simp)
      · rw [dictGet, if_neg hk] at h
        simp [dictSet, hk, ih h]

theorem dictGet_append_of_none {α : Type} (d e : List (String × α)) (k : String)
    (h : dictGet d k = none) : dictGet (d ++ e) k = dictGet e k := by
  induction d with
  | nil => simp
  | cons p rest ih =>
      obtain ⟨k', v'⟩ := p
      by_cases hk : k' = k
      · rw [dictGet, if_pos hk] at h
        exact absurd h (by simp)
      · rw [dictGet, if_neg hk] at h
        rw [List.cons_append, dictGet, if_neg hk]
        exact ih h

theorem dictSet_map_fst {α : Type} (d : List (String × α)) (k : String) (v : α) :
    (dictSet d k v).map Prod.fst =
      if k ∈ d.map Prod.fst then d.map Prod.fst else d.map Prod.fst ++ [k] := by
  induction d with
  | nil => simp [dictSet]
  | cons p rest ih =>
      obtain ⟨k', v'⟩ := p
      by_cases hk : k' = k
      · subst hk
        simp [dictSet]
      · rw [dictSet, if_neg hk]
        by_cases hm : k ∈ rest.map Prod.fst
        · simp only [List.map_cons, ih, if_pos hm]
          rw [if_pos (by simp [hm])]
        · simp only [List.map_cons, ih, if_neg hm]
          have hnotin : k ∉ (k' :: rest.map Prod.fst) := by
            simp only [List.mem_cons, not_or]
            exact ⟨fun h => hk h.symm, hm⟩
          rw [if_neg hnotin]
          simp

theorem dictSet_keys_nodup {α : Type} (d : List (String × α)) (k : String) (v : α)
    (h : (d.map Prod.fst).Nodup) : ((dictSet d k v).map Prod.fst).Nodup := by
  rw [dictSet_map_fst]
  by_cases hm : k ∈ d.map Prod.fst
  · simpa [hm] using h
  · rw [if_neg hm, List.nodup_append]
    refine ⟨h, by simp, ?_⟩
    intro x hx hx2
    simp only [List.mem_singleton] at hx2
    subst hx2
    exact hm hx

theorem dictGet_of_mem_nodup {α : Type} (d : List (String × α)) (k : String) (v : α)
    (hnd : (d.map Prod.fst).Nodup) (hm : (k, v) ∈ d) : dictGet d k = some v := by
  induction d with
  | nil => simp at hm
  | cons p rest ih =>
      obtain ⟨k', v'⟩ := p
      simp only [List.map_cons, List.nodup_cons] at hnd
      rcases List.mem_cons.mp hm with h | h
      · have h1 : k' = k := (congrArg Prod.fst h).symm
        have h2 : v' = v := (congrArg Prod.snd h).symm
        subst h1; subst h2
        simp [dictGet]
      · have hk : k' ≠ k := by
          intro hkk
          subst hkk
          exact hnd.1 (List.mem_map.mpr ⟨(k', v), h, rfl⟩)
        rw [dictGet, if_neg hk]
        exact ih hnd.2 h

theorem sum_map_const {α : Type} (l : List α) (f : α → Nat) (c : Nat)
    (h : ∀ x ∈ l, f x = c) : (l.map f).sum = l.length * c := by
  induction l with
  | nil => simp
  | cons x rest ih =>
      simp only [List.map_cons, List.sum_cons, List.length_cons]
      rw [h x (by simp), ih (fun y hy => h y (by simp [hy]))]
      ring

/-- The task list a single target language contributes (lines 645-647). -/
def provFutures (translators : List (String × (String → String → String → PyM Json)))
    (text source_code lang : String) : List (String × String × Json) :=
  translators.map
    (fun p => (lang, p.1, cellValue (p.2 text source_code (targetCodeFor lang))))

/-- The finished row of one target language: one cell per enabled
provider, holding that provider's own task outcome. -/
def provRow (translators : List (String × (String → String → String → PyM Json)))
    (text source_code lang : String) : List (String × Json) :=
  translators.map
    (fun p => (p.1, cellValue (p.2 text source_code (targetCodeFor lang))))

/-- Folding one language's completed futures into its row. -/
def rowUpd (text source_code lang : String) (r : List (String × Json))
    (translators : List (String × (String → String → String → PyM Json))) :
    List (String × Json) :=
  translators.foldl
    (fun r p => dictSet r p.1 (cellValue (p.2 text source_code (targetCodeFor lang)))) r

theorem submitLoop_spec (tl : List (String × (String → String → String → PyM Json)))
    (text sc : String) :
    ∀ (targets : List String) (d : List (String × List (String × Json)))
      (fs : List (String × String × Json)),
      (submitLoop tl text sc (d, fs) targets).2
          = fs ++ targets.flatMap (provFutures tl text sc) ∧
      ∀ k, dictGet (submitLoop tl text sc (d, fs) targets).1 k
          = if k ∈ targets then some [] else dictGet d k := by
  intro targets
  induction targets with
  | nil => intro d fs; simp [submitLoop]
  | cons lang rest ih =>
      intro d fs
      rw [submitLoop]
      constructor
      · rw [(ih _ _).1]
        simp [provFutures]
      · intro k
        rw [(ih _ _).2 k]
        by_cases hr : k ∈ rest
        · simp [hr]
        · by_cases hl : k = lang
          · subst hl
            simp [hr, dictGet_dictSet_self]
          · simp only [if_neg hr]
            rw [dictGet_dictSet_ne _ _ _ _ hl]
            simp [hr, hl]

theorem fillLoop_append (d : List (String × List (String × Json)))
    (fs1 fs2 : List (String × String × Json)) :
    fillLoop d (fs1 ++ fs2) = fillLoop (fillLoop d fs1) fs2 := by
  induction fs1 generalizing d with
  | nil => simp [fillLoop]
  | cons f rest ih =>
      obtain ⟨lang, name, v⟩ := f
      simp [fillLoop, ih]

theorem fillLoop_row (text sc lang : String) :
    ∀ (tl : List (String × (String → String → String → PyM Json)))
      (d : List (String × List (String × Json))) (r : List (String × Json)),
      dictGet d lang = some r →
      ∀ k, dictGet (fillLoop d (provFutures tl text sc lang)) k
          = if k = lang then some (rowUpd text sc lang r tl) else dictGet d k := by
  intro tl
  induction tl with
  | nil =>
      intro d r h k
      by_cases hk : k = lang
      · subst hk; simpa [provFutures, fillLoop, rowUpd] using h
      · simp [provFutures, fillLoop, rowUpd, hk]
  | cons p tl' ih =>
      intro d r h k
      have hstep : fillLoop d (provFutures (p :: tl') text sc lang)
          = fillLoop
              (dictSet d lang
                (dictSet r p.1 (cellValue (p.2 text sc (targetCodeFor lang)))))
              (provFutures tl' text sc lang) := by
        simp [provFutures, fillLoop, h]
      rw [hstep,
        ih _ (dictSet r p.1 (cellValue (p.2 text sc (targetCodeFor lang))))
          (dictGet_dictSet_self _ _ _) k]
      by_cases hk : k = lang
      · subst hk
        simp [rowUpd]
      · simp only [if_neg hk]
        exact dictGet_dictSet_ne _ _ _ _ hk

theorem rowUpd_disjoint (text sc lang : String) :
    ∀ (tl : List (String × (String → String → String → PyM Json)))
      (r : List (String × Json)),
      (∀ p ∈ tl, dictGet r p.1 = none) → (tl.map Prod.fst).Nodup →
      rowUpd text sc lang r tl = r ++ provRow tl text sc lang := by
  intro tl
  induction tl with
  | nil => intro r _ _; simp [rowUpd, provRow]
  | cons p tl' ih =>
      intro r hr hnd
      simp only [List.map_cons, List.nodup_cons] at hnd
      rw [rowUpd, List.foldl_cons,
        dictSet_of_none _ _ _ (hr p (by simp))]
      have hr' : ∀ q ∈ tl', dictGet
          (r ++ [(p.1, cellValue (p.2 text sc (targetCodeFor lang)))]) q.1 = none := by
        intro q hq
        rw [dictGet_append_of_none _ _ _ (hr q (by simp [hq]))]
        have : p.1 ≠ q.1 := by
          intro hpq
          exact hnd.1 (hpq ▸ List.mem_map.mpr ⟨q, hq, rfl⟩)
        rw [dictGet, if_neg this]
        rfl
      have := ih (r ++ [(p.1, cellValue (p.2 text sc (targetCodeFor lang)))]) hr' hnd.2
      rw [rowUpd] at this
      rw [this]
      simp [provRow]

theorem rowUpd_id (text sc lang : String) :
    ∀ (tl : List (String × (String → String → String → PyM Json)))
      (r : List (String × Json)),
      (∀ p ∈ tl, dictGet r p.1
          = some (cellValue (p.2 text sc (targetCodeFor lang)))) →
      rowUpd text sc lang r tl = r := by
  intro tl
  induction tl with
  | nil => intro r _; simp [rowUpd]
  | cons p tl' ih =>
      intro r hr
      rw [rowUpd, List.foldl_cons, dictSet_eq_of_get _ _ _ (hr p (by simp))]
      exact ih r (fun q hq => hr q (by simp [hq]))

theorem provRow_get (text sc lang : String)
    (tl : List (String × (String → String → String → PyM Json)))
    (hnd : (tl.map Prod.fst).Nodup) :
    ∀ p ∈ tl, dictGet (provRow tl text sc lang) p.1
        = some (cellValue (p.2 text sc (targetCodeFor lang))) := by
  induction tl with
  | nil => intro p hp; simp at hp
  | cons q tl' ih =>
      simp only [List.map_cons, List.nodup_cons] at hnd
      intro p hp
      rcases List.mem_cons.mp hp with h | h
      · subst h
        simp [provRow, dictGet]
      · have : q.1 ≠ p.1 := by
          intro hqp
          exact hnd.1 (hqp ▸ List.mem_map.mpr ⟨p, h, rfl⟩)
        rw [provRow, List.map_cons, dictGet, if_neg this]
        exact ih hnd.2 p h

theorem rowUpd_provRow (text sc lang : String)
    (tl : List (String × (String → String → String → PyM Json)))
    (hnd : (tl.map Prod.fst).Nodup) :
    rowUpd text sc lang (provRow tl text sc lang) tl = provRow tl text sc lang :=
  rowUpd_id text sc lang tl _ (provRow_get text sc lang tl hnd)

theorem rowUpd_nil (text sc lang : String)
    (tl : List (String × (String → String → String → PyM Json)))
    (hnd : (tl.map Prod.fst).Nodup) :
    rowUpd text sc lang [] tl = provRow tl text sc lang := by
  simpa using rowUpd_disjoint text sc lang tl [] (by simp [dictGet]) hnd

theorem fillLoop_spec (text sc : String)
    (tl : List (String × (String → String → String → PyM Json)))
    (hnd : (tl.map Prod.fst).Nodup) :
    ∀ (targets : List String) (d : List (String × List (String × Json))),
      (∀ lang ∈ targets,
        dictGet d lang = some [] ∨ dictGet d lang = some (provRow tl text sc lang)) →
      ∀ k, dictGet (fillLoop d (targets.flatMap (provFutures tl text sc))) k
          = if k ∈ targets then some (provRow tl text sc k) else dictGet d k := by
  intro targets
  induction targets with
  | nil => intro d _ k; simp [fillLoop]
  | cons lang rest ih =>
      intro d hinv k
      rw [List.flatMap_cons, fillLoop_append]
      have hlang := hinv lang (by simp)
      have hone : ∀ k', dictGet (fillLoop d (provFutures tl text sc lang)) k'
          = if k' = lang then some (provRow tl text sc lang) else dictGet d k' := by
        intro k'
        rcases hlang with h | h
        · rw [fillLoop_row text sc lang tl d [] h k']
          rw [rowUpd_nil text sc lang tl hnd]
        · rw [fillLoop_row text sc lang tl d _ h k']
          rw [rowUpd_provRow text sc lang tl hnd]
      have hinv' : ∀ lang' ∈ rest,
          dictGet (fillLoop d (provFutures tl text sc lang)) lang' = some []
          ∨ dictGet (fillLoop d (provFutures tl text sc lang)) lang'
              = some (provRow tl text sc lang') := by
        intro lang' hl'
        rw [hone lang']
        by_cases h : lang' = lang
        · simp [h]
        · simp only [if_neg h]
          exact hinv lang' (by simp [hl'])
      rw [ih _ hinv' k]
      by_cases hr : k ∈ rest
      · simp [hr]
      · simp only [if_neg hr]
        rw [hone k]
        by_cases hk : k = lang
        · simp [hk]
        · simp [hk, hr]

/-- The effective per-provider enablement test: enabled unless a truthy
toggle dict maps the provider's name to a false value. -/
def enabledPred (enabled_services : Option (List (String × Bool))) (nm : String) :
    Bool :=
  match enabled_services with
  | none => true
  | some m => m.isEmpty || (dictGet m nm).getD true

theorem enabledFilter_eq_filter {F : Type} (es : Option (List (String × Bool)))
    (tbl : List (String × F)) :
    enabledFilter es tbl = tbl.filter (fun p => enabledPred es p.1) := by
  match es with
  | none => simp [enabledFilter, enabledPred]
  | some m =>
      by_cases hm : m.isEmpty
      · simp [enabledFilter, enabledPred, hm]
      · simp [enabledFilter, enabledPred, hm]

theorem enabledNames_nodup (net : Net) (pp : PyPrims) (a b c : Option String)
    (es : Option (List (String × Bool))) :
    ((enabledFilter es (allTranslators net pp a b c)).map Prod.fst).Nodup := by
  have hsub : (enabledFilter es (allTranslators net pp a b c)).Sublist
      (allTranslators net pp a b c) := by
    rw [enabledFilter_eq_filter]
    exact List.filter_sublist _
  exact List.Nodup.sublist (hsub.map Prod.fst)
    (by
      show (["DeepL", "PONS", "Google", "Lingva"] : List String).Nodup
      decide)

theorem submitLoop_keys_nodup
    (tl : List (String × (String → String → String → PyM Json)))
    (text sc : String) :
    ∀ (targets : List String) (d : List (String × List (String × Json)))
      (fs : List (String × String × Json)),
      (d.map Prod.fst).Nodup →
      (((submitLoop tl text sc (d, fs) targets).1).map Prod.fst).Nodup := by
  intro targets
  induction targets with
  | nil => intro d fs h; exact h
  | cons lang rest ih =>
      intro d fs h
      exact ih _ _ (dictSet_keys_nodup _ _ _ h)

theorem fillLoop_keys_nodup :
    ∀ (fs : List (String × String × Json))
      (d : List (String × List (String × Json))),
      (d.map Prod.fst).Nodup → ((fillLoop d fs).map Prod.fst).Nodup := by
  intro fs
  induction fs with
  | nil => intro d h; exact h
  | cons f rest ih =>
      obtain ⟨lang, name, v⟩ := f
      intro d h
      exact ih _ (dictSet_keys_nodup _ _ _ h)

/-- The master characterization of the returned matrix: a language key is
bound exactly when it is an effective target, and its row is the ordered
list of (enabled provider, that provider's own task outcome) cells. -/
theorem translations_spec (decrypt : String → Except Unit String) (now : Int)
    (env : Env) (net : Net) (pp : PyPrims) (text : String)
    (sl : Option String) (tls : Option (List String))
    (es xs : Option (List (String × Bool))) (uid : Option Nat)
    (db : Option Db) :
    ∀ k,
      dictGet (translate_to_all_languages decrypt now env net pp text sl tls
          es xs uid db).translations k
        = if k ∈ effTargetLangs (effSourceLang sl) tls
          then some (provRow
            (enabledFilter es (allTranslators net pp
              (resolveKeys decrypt now env uid db).1
              (resolveKeys decrypt now env uid db).2.1
              (resolveKeys decrypt now env uid db).2.2.1))
            text (sourceCodeFor (effSourceLang sl)) k)
          else none := by
  intro k
  set tl := enabledFilter es (allTranslators net pp
      (resolveKeys decrypt now env uid db).1
      (resolveKeys decrypt now env uid db).2.1
      (resolveKeys decrypt now env uid db).2.2.1) with htl
  set sc := sourceCodeFor (effSourceLang sl) with hsc
  set targets := effTargetLangs (effSourceLang sl) tls with htg
  have hnd : (tl.map Prod.fst).Nodup := enabledNames_nodup net pp _ _ _ es
  show dictGet (fillLoop (submitLoop tl text sc ([], []) targets).1
      (submitLoop tl text sc ([], []) targets).2) k = _
  obtain ⟨h2, h1⟩ := submitLoop_spec tl text sc targets [] []
  rw [h2, List.nil_append,
    fillLoop_spec text sc tl hnd targets _
      (fun lang hl => Or.inl (by rw [h1 lang]; simp [hl])) k]
  by_cases hk : k ∈ targets
  · simp [hk]
  · rw [if_neg hk, if_neg hk, h1 k, if_neg hk]
    rfl

/-- The key list of the returned matrix has no duplicates. -/
theorem translations_keys_nodup (decrypt : String → Except Unit String)
    (now : Int) (env : Env) (net : Net) (pp : PyPrims) (text : String)
    (sl : Option String) (tls : Option (List String))
    (es xs : Option (List (String × Bool))) (uid : Option Nat)
    (db : Option Db) :
    (((translate_to_all_languages decrypt now env net pp text sl tls
        es xs uid db).translations).map Prod.fst).Nodup := by
  set tl := enabledFilter es (allTranslators net pp
      (resolveKeys decrypt now env uid db).1
      (resolveKeys decrypt now env uid db).2.1
      (resolveKeys decrypt now env uid db).2.2.1) with htl
  set sc := sourceCodeFor (effSourceLang sl) with hsc
  set targets := effTargetLangs (effSourceLang sl) tls with htg
  show (((fillLoop (submitLoop tl text sc ([], []) targets).1
      (submitLoop tl text sc ([], []) targets).2)).map Prod.fst).Nodup
  exact fillLoop_keys_nodup _ _
    (submitLoop_keys_nodup tl text sc targets [] [] (by simp))

/-- The effective source language is never an effective target. -/
theorem effSource_not_mem_targets (src : String) (tls : Option (List String)) :
    src ∉ effTargetLangs src tls := by
  cases tls <;> simp [effTargetLangs, defaultTargets]

/-- The provider table a request ends up dispatching: the adapter map of
lines 608-613 filtered by the request's toggles (lines 616-620), over
the credentials resolved once per service (lines 584-599). -/
def requestTranslators (decrypt : String → Except Unit String) (now : Int)
    (env : Env) (net : Net) (pp : PyPrims)
    (es : Option (List (String × Bool))) (uid : Option Nat) (db : Option Db) :
    List (String × (String → String → String → PyM Json)) :=
  enabledFilter es (allTranslators net pp
    (resolveKeys decrypt now env uid db).1
    (resolveKeys decrypt now env uid db).2.1
    (resolveKeys decrypt now env uid db).2.2.1)

/-- **C2.** The key set of the returned matrix's translations equals the
effective target-language set (requested list, or the default set,
minus the effective source), and the effective source language is never
a key — even when explicitly requested as a target (it is filtered out
of every target list). -/
theorem c2_target_key_set (decrypt : String → Except Unit String) (now : Int)
    (env : Env) (net : Net) (pp : PyPrims) (text : String)
    (sl : Option String) (tls : Option (List String))
    (es xs : Option (List (String × Bool))) (uid : Option Nat)
    (db : Option Db) :
    (∀ k, (dictGet (translate_to_all_languages decrypt now env net pp text
          sl tls es xs uid db).translations k).isSome
        ↔ k ∈ effTargetLangs (effSourceLang sl) tls) ∧
    dictGet (translate_to_all_languages decrypt now env net pp text
        sl tls es xs uid db).translations (effSourceLang sl) = none ∧
    (translate_to_all_languages decrypt now env net pp text
        sl tls es xs uid db).source_language = effSourceLang sl := by
  refine ⟨?_, ?_, rfl⟩
  · intro k
    rw [translations_spec decrypt now env net pp text sl tls es xs uid db k]
    by_cases hk : k ∈ effTargetLangs (effSourceLang sl) tls <;> simp [hk]
  · rw [translations_spec decrypt now env net pp text sl tls es xs uid db _,
      if_neg (effSource_not_mem_targets _ tls)]

/-- **C1, counterexample.** The claim enables a provider iff the toggle
map "is absent or maps its name to true"; but a present toggle map that
does not mention a provider leaves it enabled. With toggles
`{"DeepL": false}` the map does not map `"PONS"` at all, yet the
returned matrix has a PONS cell (and Google, Lingva). -/
theorem c1_counterexample :
    dictGet [("DeepL", false)] "PONS" = none ∧
    ((dictGet (translate_to_all_languages (fun _ => .error ()) 0
          ⟨"", "", "", "", ""⟩ (constNet .exn) ⟨id, id, id⟩ "hi"
          (some "german") (some ["english"]) (some [("DeepL", false)])
          (some [("PONS Definition", false), ("Groq AI", false)])
          none none).translations "english").getD []).map Prod.fst
      = ["PONS", "Google", "Lingva"] :=
  ⟨rfl, by decide⟩

/-- **C1 (amended).** For every request the returned matrix contains
exactly one outcome cell per (effective target language, enabled
provider) pair — a provider being enabled iff the toggle map is absent,
empty, does not contain its name, or maps its name to a true value
(`enabledPred`) — and each cell holds exactly its own task's outcome
(a failing task contributing its own `"[Error]"`/ProviderError cell
without touching sibling cells); non-target languages have no row, the
key list has no duplicates, the total number of cells is
`#rows × #enabled providers`, and the two enrichment slots are populated
from their own tasks (empty when toggled off). -/
theorem c1_amended_complete_matrix (decrypt : String → Except Unit String)
    (now : Int) (env : Env) (net : Net) (pp : PyPrims) (text : String)
    (sl : Option String) (tls : Option (List String))
    (es xs : Option (List (String × Bool))) (uid : Option Nat)
    (db : Option Db) :
    requestTranslators decrypt now env net pp es uid db
      = (allTranslators net pp
          (resolveKeys decrypt now env uid db).1
          (resolveKeys decrypt now env uid db).2.1
          (resolveKeys decrypt now env uid db).2.2.1).filter
          (fun p => enabledPred es p.1) ∧
    (∀ lang ∈ effTargetLangs (effSourceLang sl) tls,
      dictGet (translate_to_all_languages decrypt now env net pp text
          sl tls es xs uid db).translations lang
        = some (provRow (requestTranslators decrypt now env net pp es uid db)
            text (sourceCodeFor (effSourceLang sl)) lang)) ∧
    (∀ lang ∈ effTargetLangs (effSourceLang sl) tls,
      ∀ p ∈ requestTranslators decrypt now env net pp es uid db,
      (dictGet (translate_to_all_languages decrypt now env net pp text
          sl tls es xs uid db).translations lang).bind
          (fun row => dictGet row p.1)
        = some (cellValue
            (p.2 text (sourceCodeFor (effSourceLang sl)) (targetCodeFor lang)))) ∧
    (∀ lang, lang ∉ effTargetLangs (effSourceLang sl) tls →
      dictGet (translate_to_all_languages decrypt now env net pp text
          sl tls es xs uid db).translations lang = none) ∧
    ((translate_to_all_languages decrypt now env net pp text
        sl tls es xs uid db).translations.map Prod.fst).Nodup ∧
    ((translate_to_all_languages decrypt now env net pp text
        sl tls es xs uid db).translations.map (fun p => p.2.length)).sum
      = (translate_to_all_languages decrypt now env net pp text
          sl tls es xs uid db).translations.length
        * (requestTranslators decrypt now env net pp es uid db).length ∧
    (translate_to_all_languages decrypt now env net pp text
        sl tls es xs uid db).ai_explanation
      = enrichValue (explToggles xs).1
          (get_pons_definition net pp text (sourceCodeFor (effSourceLang sl))
            (resolveKeys decrypt now env uid db).2.1) ∧
    (translate_to_all_languages decrypt now env net pp text
        sl tls es xs uid db).groq_explanation
      = enrichValue (explToggles xs).2
          (get_groq_explanation net text (sourceCodeFor (effSourceLang sl))
            (resolveKeys decrypt now env uid db).2.2.2) := by
  have hmaster := translations_spec decrypt now env net pp text sl tls es xs uid db
  have hnd : ((enabledFilter es (allTranslators net pp
      (resolveKeys decrypt now env uid db).1
      (resolveKeys decrypt now env uid db).2.1
      (resolveKeys decrypt now env uid db).2.2.1)).map
      Prod.fst).Nodup := enabledNames_nodup net pp _ _ _ es
  simp only [requestTranslators]
  refine ⟨enabledFilter_eq_filter es _, ?_, ?_, ?_, ?_, ?_, rfl, rfl⟩
  · intro lang hl
    rw [hmaster lang, if_pos hl]
  · intro lang hl p hp
    rw [hmaster lang, if_pos hl]
    exact provRow_get _ _ lang _ hnd p hp
  · intro lang hl
    rw [hmaster lang, if_neg hl]
  · exact translations_keys_nodup decrypt now env net pp text sl tls es xs uid db
  · apply sum_map_const
    intro p hp
    obtain ⟨k, row⟩ := p
    have hget := dictGet_of_mem_nodup _ k row
      (translations_keys_nodup decrypt now env net pp text sl tls es xs uid db) hp
    rw [hmaster k] at hget
    by_cases hk : k ∈ effTargetLangs (effSourceLang sl) tls
    · rw [if_pos hk] at hget
      have hrow : row = provRow (enabledFilter es (allTranslators net pp
          (resolveKeys decrypt now env uid db).1
          (resolveKeys decrypt now env uid db).2.1
          (resolveKeys decrypt now env uid db).2.2.1))
          text (sourceCodeFor (effSourceLang sl)) k := by
        injection hget.symm
      simp [hrow, provRow]
    · rw [if_neg hk] at hget
      exact absurd hget (by simp)

/-- **C9, counterexample.** The claim says an unknown target-language
name is replaced by "the source language's default"; but the coordinator
substitutes `"en"` for unknown target names (line 642), while the source
default code is `"de"` (line 575). -/
theorem c9_counterexample :
    dictGet LANGUAGE_CODES "klingon" = none ∧
    targetCodeFor "klingon" = "en" ∧
    sourceCodeFor "german" = "de" ∧
    ("en" : String) ≠ "de" :=
  ⟨rfl, rfl, rfl, by decide⟩

/-- **C9 (amended).** Language-name lookup is total over the request: an
unknown source name falls back to code `"de"` (the default source
language's code), an unknown target name falls back to `"en"`, and a
request naming only unknown languages still completes, with the unknown
target present (fully populated) in the matrix. -/
theorem c9_amended_unknown_names (decrypt : String → Except Unit String)
    (now : Int) (env : Env) (net : Net) (pp : PyPrims) (text : String)
    (sname tname : String)
    (hs : dictGet LANGUAGE_CODES sname = none)
    (ht : dictGet LANGUAGE_CODES tname = none)
    (hsa : ¬(sname = "" ∨ sname = "auto")) (hne : tname ≠ sname) :
    sourceCodeFor sname = "de" ∧
    targetCodeFor tname = "en" ∧
    dictGet (translate_to_all_languages decrypt now env net pp text
        (some sname) (some [tname]) none none none none).translations tname
      = some (provRow (requestTranslators decrypt now env net pp none none none)
          text "de" tname) := by
  have hsrc : effSourceLang (some sname) = sname := by
    simp [effSourceLang, hsa]
  refine ⟨by simp [sourceCodeFor, hs], by simp [targetCodeFor, ht], ?_⟩
  simp only [requestTranslators]
  have hmem : tname ∈ effTargetLangs (effSourceLang (some sname)) (some [tname]) := by
    rw [hsrc]
    simp [effTargetLangs, hne]
  rw [translations_spec decrypt now env net pp text (some sname) (some [tname])
      none none none none tname, if_pos hmem, hsrc]
  have hsc : sourceCodeFor sname = "de" := by simp [sourceCodeFor, hs]
  rw [hsc]

/-- **C9 (amended), witness.** -/
theorem c9_amended_unknown_names_witness :
    sourceCodeFor "klingonese" = "de" ∧
    targetCodeFor "elvish" = "en" ∧
    dictGet (translate_to_all_languages (fun _ => .error ()) 0
        ⟨"", "", "", "", ""⟩ (constNet .exn) ⟨id, id, id⟩ "hi"
        (some "klingonese") (some ["elvish"]) none none none none).translations
        "elvish"
      = some (provRow (requestTranslators (fun _ => .error ()) 0
          ⟨"", "", "", "", ""⟩ (constNet .exn) ⟨id, id, id⟩ none none none)
          "hi" "de" "elvish") :=
  c9_amended_unknown_names (fun _ => .error ()) 0 ⟨"", "", "", "", ""⟩
    (constNet .exn) ⟨id, id, id⟩ "hi" "klingonese" "elvish" rfl rfl
    (by decide) (by decide)

/-! ## The dictionary adapter's cleaning pipeline (C8) -/

/-- What the vetting of lines 405-424 guarantees about every retained
translation alternative. -/
def cleanEntryOK (x : String) : Prop :=
  x ≠ "" ∧ x.length < 25 ∧ strStartsWith x "sich " = false ∧
  strContains x "sb" = false ∧ strContains x "sth" = false ∧
  strContains x "jdn" = false ∧ strContains x "etw" = false ∧
  strContains x "dat" = false ∧ strContains x "akk" = false ∧
  ¬(strStartsWith x "to " = true ∧ 15 < x.length)

/-- The collector invariant: entries are case-insensitively distinct,
individually vetted, and tracked in `seen` by their lowercase form. -/
def ponsStateOK (st : List String × List String) : Prop :=
  (st.2.map pyLower).Nodup ∧ (∀ x ∈ st.2, cleanEntryOK x) ∧
  (∀ x ∈ st.2, pyLower x ∈ st.1)

theorem ponsVet_preserves (pp : PyPrims) (st : List String × List String)
    (t : String) (hok : ponsStateOK st) : ponsStateOK (ponsVet pp st t) := by
  simp only [ponsVet]
  set clean := cleanCandidate pp t with hc
  by_cases c1 : strContains clean "sb" = true ∨ strContains clean "sth" = true
  · rwa [if_pos c1]
  rw [if_neg c1]
  by_cases c2 : strContains clean "jdn" = true ∨ strContains clean "etw" = true ∨
      strContains clean "dat" = true ∨ strContains clean "akk" = true
  · rwa [if_pos c2]
  rw [if_neg c2]
  by_cases c3 : strStartsWith clean "to " = true ∧ clean.length > 15
  · rwa [if_pos c3]
  rw [if_neg c3]
  by_cases c4 : strStartsWith clean "sich " = true
  · rwa [if_pos c4]
  rw [if_neg c4]
  by_cases c5 : clean ≠ "" ∧ pyLower clean ∉ st.1 ∧ clean.length < 25
  · rw [if_pos c5]
    obtain ⟨hne, hnotin, hlen⟩ := c5
    simp only [not_or, Bool.not_eq_true] at c1 c2 c4
    refine ⟨?_, ?_, ?_⟩
    · rw [List.map_append, List.nodup_append]
      refine ⟨hok.1, by simp, ?_⟩
      intro y hy hy2
      simp only [List.map_cons, List.map_nil, List.mem_singleton] at hy2
      subst hy2
      obtain ⟨x, hx, hxe⟩ := List.mem_map.mp hy
      exact hnotin (hxe ▸ hok.2.2 x hx)
    · intro x hx
      rcases List.mem_append.mp hx with hx | hx
      · exact hok.2.1 x hx
      · simp only [List.mem_singleton] at hx
        subst hx
        exact ⟨hne, hlen, c4, c1.1, c1.2, c2.1, c2.2.1, c2.2.2.1, c2.2.2.2, c3⟩
    · intro x hx
      rcases List.mem_append.mp hx with hx | hx
      · exact List.mem_cons_of_mem _ (hok.2.2 x hx)
      · simp only [List.mem_singleton] at hx
        subst hx
        exact List.mem_cons_self _ _
  · rwa [if_neg c5]

/-- A candidate whose cleaned form is reflexive (`sich `) is discarded
by the vetting, whatever the rest of the state. -/
theorem ponsVet_sich (pp : PyPrims) (st : List String × List String)
    (t : String) (hsich : strStartsWith (cleanCandidate pp t) "sich " = true) :
    ponsVet pp st t = st := by
  simp only [ponsVet]
  by_cases c1 : strContains (cleanCandidate pp t) "sb" = true ∨
      strContains (cleanCandidate pp t) "sth" = true
  · rw [if_pos c1]
  rw [if_neg c1]
  by_cases c2 : strContains (cleanCandidate pp t) "jdn" = true ∨
      strContains (cleanCandidate pp t) "etw" = true ∨
      strContains (cleanCandidate pp t) "dat" = true ∨
      strContains (cleanCandidate pp t) "akk" = true
  · rw [if_pos c2]
  rw [if_neg c2]
  by_cases c3 : strStartsWith (cleanCandidate pp t) "to " = true ∧
      (cleanCandidate pp t).length > 15
  · rw [if_pos c3]
  rw [if_neg c3, if_pos hsich]

theorem ponsStep_preserves (pp : PyPrims) (st : List String × List String)
    (arab : Json) (n : Nat) (r : List String × List String) (m : Nat)
    (hok : ponsStateOK st) (h : ponsStep pp st arab n = (.ok r, m)) :
    ponsStateOK r := by
  rw [ponsStep] at h
  repeat'
    first
      | (split at h)
      | (simp only [bind_apply, pure_apply] at h)
  all_goals injection h with h1 h2
  all_goals
    first
      | exact Except.noConfusion h1
      | (injection h1 with h1
         first
           | exact h1 ▸ hok
           | exact h1 ▸ ponsVet_preserves pp st _ hok)

theorem pyFoldM_inv {σ α : Type} (P : σ → Prop) (f : σ → α → PyM σ)
    (hf : ∀ s a n s' m, f s a n = (.ok s', m) → P s → P s') :
    ∀ (l : List α) (s : σ) (n : Nat) (s' : σ) (m : Nat),
      pyFoldM f s l n = (.ok s', m) → P s → P s' := by
  intro l
  induction l with
  | nil =>
      intro s n s' m h hp
      rw [pyFoldM] at h
      simp only [pure_apply] at h
      injection h with h1 h2
      injection h1 with h1
      exact h1 ▸ hp
  | cons a rest ih =>
      intro s n s' m h hp
      rw [pyFoldM] at h
      simp only [bind_apply] at h
      split at h
      · rename_i s1 n1 heq
        exact ih s1 n1 s' m h (hf s a n s1 n1 heq hp)
      · exact absurd h (by simp)

theorem ponsRom_preserves (pp : PyPrims) (st : List String × List String)
    (rom : Json) (n : Nat) (r : List String × List String) (m : Nat)
    (hok : ponsStateOK st) (h : ponsRom pp st rom n = (.ok r, m)) :
    ponsStateOK r := by
  rw [ponsRom] at h
  repeat'
    first
      | (split at h)
      | (simp only [bind_apply, pure_apply] at h)
  all_goals
    first
      | exact pyFoldM_inv ponsStateOK (ponsStep pp)
          (fun s a n s' m hfa hp => ponsStep_preserves pp s a n s' m hp hfa)
          _ _ _ _ _ h hok
      | (injection h with h1 h2
         exact Except.noConfusion h1)

theorem ponsHit_preserves (pp : PyPrims) (st : List String × List String)
    (hit : Json) (n : Nat) (r : List String × List String) (m : Nat)
    (hok : ponsStateOK st) (h : ponsHit pp st hit n = (.ok r, m)) :
    ponsStateOK r := by
  rw [ponsHit] at h
  repeat'
    first
      | (split at h)
      | (simp only [bind_apply, pure_apply] at h)
  all_goals
    first
      | exact pyFoldM_inv ponsStateOK (ponsRom pp)
          (fun s a n s' m hfa hp => ponsRom_preserves pp s a n s' m hp hfa)
          _ _ _ _ _ h hok
      | (injection h with h1 h2
         exact Except.noConfusion h1)

theorem ponsCollect_ok (pp : PyPrims) (hits : Json) (n : Nat)
    (seen acc : List String) (m : Nat)
    (h : ponsCollect pp hits n = (.ok (seen, acc), m)) :
    ponsStateOK (seen, acc) := by
  have hinit : ponsStateOK ([], []) := ⟨List.nodup_nil, by simp, by simp⟩
  rw [ponsCollect] at h
  repeat'
    first
      | (split at h)
      | (simp only [bind_apply, pure_apply] at h)
  all_goals
    first
      | exact pyFoldM_inv ponsStateOK (ponsHit pp)
          (fun s a n s' m hfa hp => ponsHit_preserves pp s a n s' m hp hfa)
          _ _ _ _ _ h hinit
      | (injection h with h1 h2
         exact Except.noConfusion h1)

instance {α β : Type} [DecidableEq α] [DecidableEq β] :
    DecidableEq (Except α β) := fun a b =>
  match a, b with
  | .ok x, .ok y =>
      if h : x = y then isTrue (h ▸ rfl) else isFalse (by simp [h])
  | .error x, .error y =>
      if h : x = y then isTrue (h ▸ rfl) else isFalse (by simp [h])
  | .ok _, .error _ => isFalse (by simp)
  | .error _, .ok _ => isFalse (by simp)

/-- A candidate whose first translation's source html carries the
`class="example"` marker is skipped: the collector state is unchanged. -/
theorem ponsStep_example_discard (pp : PyPrims) (st : List String × List String)
    (kvs tkvs : List (String × Json)) (n : Nat) (rest : List Json) (s : String)
    (htr : dictGet kvs "translations" = some (.arr (.obj tkvs :: rest)))
    (hsrc : dictGet tkvs "source" = some (.str s))
    (hex : strContains s "class=\"example\"" = true) :
    ponsStep pp st (.obj kvs) n = (.ok st, n) := by
  rw [ponsStep]
  simp [pyGet, pyIdx, pyStr, htr, hsrc, hex, pyTruthy]

/-- A non-example candidate whose cleaned target is reflexive (`sich `)
is discarded: the collector state is unchanged. -/
theorem ponsStep_reflexive_discard (pp : PyPrims)
    (st : List String × List String) (kvs tkvs : List (String × Json))
    (n : Nat) (rest : List Json) (s t : String)
    (htr : dictGet kvs "translations" = some (.arr (.obj tkvs :: rest)))
    (hsrc : dictGet tkvs "source" = some (.str s))
    (htgt : dictGet tkvs "target" = some (.str t))
    (hex : strContains s "class=\"example\"" = false)
    (hsich : strStartsWith (cleanCandidate pp t) "sich " = true) :
    ponsStep pp st (.obj kvs) n = (.ok st, n) := by
  rw [ponsStep]
  simp [pyGet, pyIdx, pyStr, htr, hsrc, htgt, hex, pyTruthy,
    ponsVet_sich pp st t hsich]

/-- **C8.** In `translate_pons`'s response-cleaning pipeline the
collected alternative list is deduplicated case-insensitively (its
lowercased entries are pairwise distinct), every retained entry is
non-empty, under the 25-character maximum, and free of the
reflexive/prepositional artifacts (`sich `, `sb`, `sth`, `jdn`, `etw`,
`dat`, `akk`, long `to `-infinitives); the list the adapter returns is
truncated to at most 8 entries; candidates marked as example sentences
and candidates cleaning to a reflexive `sich ` phrase leave the state
untouched; and a concrete run shows a case-variant duplicate being
dropped. -/
theorem c8_cleaning_pipeline (pp : PyPrims) :
    (∀ (hits : Json) (n : Nat) (seen acc : List String) (m : Nat),
      ponsCollect pp hits n = (.ok (seen, acc), m) →
        ((acc.map pyLower).Nodup ∧ (∀ x ∈ acc, cleanEntryOK x) ∧
          (acc.take 8).length ≤ 8)) ∧
    (∀ (st : List String × List String) (kvs tkvs : List (String × Json))
      (n : Nat) (rest : List Json) (s : String),
      dictGet kvs "translations" = some (.arr (.obj tkvs :: rest)) →
      dictGet tkvs "source" = some (.str s) →
      strContains s "class=\"example\"" = true →
      ponsStep pp st (.obj kvs) n = (.ok st, n)) ∧
    (∀ (st : List String × List String) (t : String),
      strStartsWith (cleanCandidate pp t) "sich " = true →
      ponsVet pp st t = st) ∧
    ponsCollect ⟨id, id, id⟩
      (.arr [.obj [("roms", .arr [.obj [("arabs", .arr
        [.obj [("translations", .arr
          [.obj [("target", .str "Haus"), ("source", .str "w")]])],
         .obj [("translations", .arr
          [.obj [("target", .str "HAUS"), ("source", .str "w")]])]])]])]]) 0
      = (.ok (["haus"], ["Haus"]), 0) := by
  refine ⟨?_, ?_, ?_, ?_⟩
  · intro hits n seen acc m h
    have hok := ponsCollect_ok pp hits n seen acc m h
    refine ⟨hok.1, hok.2.1, ?_⟩
    rw [List.length_take]
    exact Nat.min_le_left _ _
  · intro st kvs tkvs n rest s htr hsrc hex
    exact ponsStep_example_discard pp st kvs tkvs n rest s htr hsrc hex
  · intro st t hsich
    exact ponsVet_sich pp st t hsich
  · decide

end Polyglott
